import Mathlib

/-!
Verification development for the gap-based sleep inference engine of
`sleep_analysis.py` (akuat/sleep-pattern-analysis).

The shallow embedding models:
* an activity event (`ActivityEvent`) as a timestamp in whole seconds since a
  midnight-aligned epoch (Python naive `datetime`s; `date()` and `.hour` become
  floor divisions) together with a `source` string;
* `infer_sleep_periods` (source lines 105-132): sort by timestamp
  (`df.sort_values("timestamp")`), drop duplicate timestamps keeping the first
  row of each instant (`drop_duplicates(subset=["timestamp"])`, modelled by
  `dropDupTS`), then a linear scan over adjacent pairs emitting a
  `SleepPeriod` whenever the gap in fractional hours lies in the hard-coded
  interval `[4, 14]`.  The `gap_threshold` parameter is carried exactly as in
  the source: declared with default `4` and never read in the body.  The
  default sort kind of `sort_values` is quicksort, documented as not stable,
  so when two rows share an instant the program does not fix which of them
  ends first and hence survives the duplicate drop; the model resolves that
  tie with the stable `List.insertionSort`.  No theorem below depends on the
  resolution: the proved properties either concern timestamps only, hold for
  any tie order, or (the permutation counterexample) use three-row inputs,
  where the sort of the program is also stable;
* `analyze_sleep_patterns` (source lines 188-220) restricted to its statistics
  block (lines 201-210): on an empty sleep table the column access
  `sleep_df["duration_hours"]` raises `KeyError` (an empty `pd.DataFrame([])`
  has no columns), modelled by `Except.error`; on a non-empty table it builds
  the statistics record.  `Series.mode()` returns the most frequent values in
  ascending order and `.iloc[0]` takes the first, modelled by `mode_first`.

Durations are exact rationals (`gap.total_seconds() / 3600`); the python float
arithmetic on the small second counts involved is exact for the properties
stated here, and the 1e-9 round-trip tolerance of the spec is verified from
exact equality.
-/

namespace SleepAnalysis

/-- An activity event: `(timestamp, source)` row of the ingested dataframe.
Timestamps are whole seconds since a midnight-aligned epoch. -/
structure ActivityEvent where
  timestamp : Nat
  source : String
deriving DecidableEq, Repr

/-- Sort key of `df.sort_values("timestamp")`: compare by timestamp only. -/
def tsLE (a b : ActivityEvent) : Prop :=
  a.timestamp ≤ b.timestamp

instance : DecidableRel tsLE := fun a b => Nat.decLe a.timestamp b.timestamp

instance : IsTotal ActivityEvent tsLE :=
  ⟨fun a b => Nat.le_total a.timestamp b.timestamp⟩

instance : IsTrans ActivityEvent tsLE :=
  ⟨fun _ _ _ h1 h2 => Nat.le_trans h1 h2⟩

/-- Pandas `drop_duplicates(subset=["timestamp"], keep="first")` scan: walk the rows
in order, keep a row iff its timestamp was not seen on an earlier kept or
dropped row. -/
def dropDupAux (seen : List Nat) : List ActivityEvent → List ActivityEvent
  | [] => []
  | e :: rest =>
      if e.timestamp ∈ seen then dropDupAux seen rest
      else e :: dropDupAux (e.timestamp :: seen) rest

/-- Pandas `drop_duplicates(subset=["timestamp"])`: keep the first row of each
distinct timestamp, deleting every later row with the same timestamp. -/
def dropDupTS (l : List ActivityEvent) : List ActivityEvent :=
  dropDupAux [] l

/-- Lines 110-111: `df.sort_values("timestamp").drop_duplicates(subset=["timestamp"])`.
This is the Activity-Merger step of the spec.  The tie order among rows that
share an instant is implementation-defined in the program (quicksort); the
model fixes it with a stable insertion sort, and no theorem below depends on
that choice. -/
def merge_timeline (df : List ActivityEvent) : List ActivityEvent :=
  dropDupTS (List.insertionSort tsLE df)

/-- Line 116: `gap.total_seconds() / 3600`, the gap in fractional hours. -/
def gapHours (t1 t2 : Nat) : ℚ :=
  ((t2 : ℚ) - (t1 : ℚ)) / 3600

/-- Line 127: `sleep_start.date()`. Calendar day index of a timestamp. -/
def dateOf (t : Nat) : Nat :=
  t / 86400

/-- Pandas `.dt.hour` (lines 207-208): integer hour of day, 0-23, by truncation. -/
def hourOf (t : Nat) : Nat :=
  t % 86400 / 3600

/-- One row of the sleep-period table built at lines 123-130. -/
structure SleepPeriod where
  sleep_start : Nat
  sleep_end : Nat
  duration_hours : ℚ
  date : Nat
  start_source : String
  end_source : String
deriving DecidableEq, Repr

/-- The record appended at lines 123-130 for the accepted pair `(e1, e2)`. -/
def mkPeriod (e1 e2 : ActivityEvent) : SleepPeriod :=
  { sleep_start := e1.timestamp
    sleep_end := e2.timestamp
    duration_hours := gapHours e1.timestamp e2.timestamp
    date := dateOf e1.timestamp
    start_source := e1.source
    end_source := e2.source }

/-- The acceptance test of line 119: `4 <= gap_hours <= 14` on an adjacent pair. -/
def acceptGap (pr : ActivityEvent × ActivityEvent) : Prop :=
  4 ≤ gapHours pr.1.timestamp pr.2.timestamp ∧
    gapHours pr.1.timestamp pr.2.timestamp ≤ 14

instance : DecidablePred acceptGap := fun pr =>
  inferInstanceAs (Decidable (_ ∧ _))

/-- The loop of lines 113-131: walk adjacent pairs of the merged timeline and
emit a `SleepPeriod` for each accepted gap. -/
def scanPairs : List ActivityEvent → List SleepPeriod
  | [] => []
  | e1 :: rest =>
      (match rest with
        | [] => []
        | e2 :: _ => if acceptGap (e1, e2) then [mkPeriod e1 e2] else []) ++
      scanPairs rest

/-- The function `infer_sleep_periods(df, gap_threshold=4)`, lines 105-132.  As in the
source, `gap_threshold` is declared (docstring: "minimum hours of inactivity
to consider as sleep") but never read: the bounds 4 and 14 are hard-coded at
line 119. -/
def infer_sleep_periods (df : List ActivityEvent) (gap_threshold : ℚ := 4) :
    List SleepPeriod :=
  scanPairs (merge_timeline df)

/-- Strict timestamp order on events. -/
def tsLT (a b : ActivityEvent) : Prop :=
  a.timestamp < b.timestamp

instance : IsAntisymm ActivityEvent tsLT :=
  ⟨fun a b h1 h2 => absurd (Nat.lt_trans h1 h2) (Nat.lt_irrefl _)⟩

/-! ### The duplicate-timestamp drop -/

theorem dropDupAux_cons_of_mem {seen : List Nat} {e : ActivityEvent}
    (l : List ActivityEvent) (h : e.timestamp ∈ seen) :
    dropDupAux seen (e :: l) = dropDupAux seen l := by
  simp only [dropDupAux]
  rw [if_pos h]

theorem dropDupAux_cons_of_not_mem {seen : List Nat} {e : ActivityEvent}
    (l : List ActivityEvent) (h : e.timestamp ∉ seen) :
    dropDupAux seen (e :: l) = e :: dropDupAux (e.timestamp :: seen) l := by
  simp only [dropDupAux]
  rw [if_neg h]

theorem dropDupAux_sublist (seen : List Nat) :
    ∀ l : List ActivityEvent, (dropDupAux seen l).Sublist l
  | [] => List.Sublist.refl []
  | e :: rest => by
    by_cases h : e.timestamp ∈ seen
    · rw [dropDupAux_cons_of_mem rest h]
      exact (dropDupAux_sublist seen rest).cons e
    · rw [dropDupAux_cons_of_not_mem rest h]
      exact (dropDupAux_sublist (e.timestamp :: seen) rest).cons₂ e

theorem mem_dropDupAux (e : ActivityEvent) :
    ∀ (seen : List Nat) (l : List ActivityEvent),
      e ∈ dropDupAux seen l ↔
        e.timestamp ∉ seen ∧
          l.find? (fun f => f.timestamp == e.timestamp) = some e
  | _, [] => by simp [dropDupAux]
  | seen, f :: rest => by
    by_cases hf : f.timestamp ∈ seen
    · rw [dropDupAux_cons_of_mem rest hf, List.find?_cons]
      by_cases hfe : f.timestamp = e.timestamp
      · have hb : (f.timestamp == e.timestamp) = true := by simpa using hfe
        rw [hb, mem_dropDupAux e seen rest]
        constructor
        · rintro ⟨hnot, -⟩
          exact absurd (hfe ▸ hf) hnot
        · rintro ⟨hnot, -⟩
          exact absurd (hfe ▸ hf) hnot
      · have hb : (f.timestamp == e.timestamp) = false := by simpa using hfe
        rw [hb, mem_dropDupAux e seen rest]
    · rw [dropDupAux_cons_of_not_mem rest hf, List.find?_cons, List.mem_cons,
        mem_dropDupAux e (f.timestamp :: seen) rest]
      by_cases hfe : f.timestamp = e.timestamp
      · have hb : (f.timestamp == e.timestamp) = true := by simpa using hfe
        rw [hb]
        constructor
        · rintro (rfl | ⟨hnot, -⟩)
          · exact ⟨hfe ▸ hf, rfl⟩
          · exact absurd (List.mem_cons_self _ _) ((hfe ▸ hnot : e.timestamp ∉ e.timestamp :: seen))
        · rintro ⟨-, hsome⟩
          exact Or.inl (Option.some.inj hsome).symm
      · have hb : (f.timestamp == e.timestamp) = false := by simpa using hfe
        rw [hb]
        constructor
        · rintro (rfl | ⟨hnot, hfind⟩)
          · exact absurd rfl hfe
          · exact ⟨fun hmem => hnot (List.mem_cons_of_mem _ hmem), hfind⟩
        · rintro ⟨hnot, hfind⟩
          refine Or.inr ⟨?_, hfind⟩
          intro hmem
          rcases List.mem_cons.1 hmem with h | h
          · exact hfe h.symm
          · exact hnot h

theorem pairwise_ne_dropDupAux :
    ∀ (seen : List Nat) (l : List ActivityEvent),
      (dropDupAux seen l).Pairwise (fun a b => a.timestamp ≠ b.timestamp)
  | _, [] => List.Pairwise.nil
  | seen, e :: rest => by
    by_cases h : e.timestamp ∈ seen
    · rw [dropDupAux_cons_of_mem rest h]
      exact pairwise_ne_dropDupAux seen rest
    · rw [dropDupAux_cons_of_not_mem rest h, List.pairwise_cons]
      refine ⟨fun f hmem => ?_, pairwise_ne_dropDupAux (e.timestamp :: seen) rest⟩
      have hnot := ((mem_dropDupAux f _ _).1 hmem).1
      intro heq
      exact hnot (heq ▸ List.mem_cons_self _ _)

/-! ### Properties of the merge step (sort + duplicate drop) -/

theorem merge_timeline_sorted_le (df : List ActivityEvent) :
    (merge_timeline df).Pairwise tsLE :=
  List.Pairwise.sublist (dropDupAux_sublist [] _)
    (List.sorted_insertionSort tsLE df)

theorem merge_timeline_pairwise_ne (df : List ActivityEvent) :
    (merge_timeline df).Pairwise (fun a b => a.timestamp ≠ b.timestamp) :=
  pairwise_ne_dropDupAux [] _

theorem merge_timeline_pairwise_lt (df : List ActivityEvent) :
    (merge_timeline df).Pairwise tsLT :=
  ((merge_timeline_sorted_le df).and (merge_timeline_pairwise_ne df)).imp
    (fun h => Nat.lt_of_le_of_ne h.1 h.2)

/-! ### The adjacent-pair scan -/

/-- The adjacent pairs `(event i, event i+1)` of a timeline. -/
def adjPairs (l : List ActivityEvent) : List (ActivityEvent × ActivityEvent) :=
  l.zip l.tail

theorem scanPairs_eq_zip :
    ∀ l : List ActivityEvent,
      scanPairs l =
        ((adjPairs l).filter (fun pr => decide (acceptGap pr))).map
          (fun pr => mkPeriod pr.1 pr.2)
  | [] => rfl
  | e1 :: rest => by
    cases rest with
    | nil => rfl
    | cons e2 rest' =>
      rw [scanPairs]
      rw [scanPairs_eq_zip (e2 :: rest')]
      show _ ++ _ = _
      rw [adjPairs, adjPairs]
      rw [show (e1 :: e2 :: rest').zip (e1 :: e2 :: rest').tail =
        (e1, e2) :: (e2 :: rest').zip (e2 :: rest').tail from rfl]
      rw [List.filter_cons]
      by_cases h : acceptGap (e1, e2)
      · rw [if_pos h, if_pos (show decide (acceptGap (e1, e2)) = true by simpa using h)]
        rfl
      · rw [if_neg h, if_neg (show ¬ decide (acceptGap (e1, e2)) = true by simpa using h)]
        rfl

theorem mkPeriod_inj {a b a' b' : ActivityEvent}
    (h : mkPeriod a b = mkPeriod a' b') : a = a' ∧ b = b' := by
  have h1 := congrArg SleepPeriod.sleep_start h
  have h2 := congrArg SleepPeriod.sleep_end h
  have h3 := congrArg SleepPeriod.start_source h
  have h4 := congrArg SleepPeriod.end_source h
  simp only [mkPeriod] at h1 h2 h3 h4
  exact ⟨by cases a; cases a'; simp_all, by cases b; cases b'; simp_all⟩

theorem mem_scanPairs_iff {p : SleepPeriod} {l : List ActivityEvent} :
    p ∈ scanPairs l ↔
      ∃ pr ∈ adjPairs l, acceptGap pr ∧ p = mkPeriod pr.1 pr.2 := by
  rw [scanPairs_eq_zip]
  simp only [List.mem_map, List.mem_filter, decide_eq_true_eq]
  constructor
  · rintro ⟨pr, ⟨hmem, hacc⟩, rfl⟩
    exact ⟨pr, hmem, hacc, rfl⟩
  · rintro ⟨pr, hmem, hacc, rfl⟩
    exact ⟨pr, ⟨hmem, hacc⟩, rfl⟩

theorem mkPeriod_mem_scanPairs_iff {pr : ActivityEvent × ActivityEvent}
    {l : List ActivityEvent} (hmem : pr ∈ adjPairs l) :
    mkPeriod pr.1 pr.2 ∈ scanPairs l ↔ acceptGap pr := by
  rw [mem_scanPairs_iff]
  constructor
  · rintro ⟨pr', _, hacc, heq⟩
    obtain ⟨h1, h2⟩ := mkPeriod_inj heq
    have : pr = pr' := Prod.ext h1 h2
    exact this ▸ hacc
  · intro hacc
    exact ⟨pr, hmem, hacc, rfl⟩

theorem scanPairs_length :
    ∀ l : List ActivityEvent, (scanPairs l).length ≤ l.length - 1 := by
  intro l
  rw [scanPairs_eq_zip, List.length_map]
  calc ((adjPairs l).filter _).length
      ≤ (adjPairs l).length := List.length_filter_le _ _
    _ ≤ l.length - 1 := by
        rw [adjPairs, List.length_zip, List.length_tail]
        exact Nat.min_le_right _ _

theorem sleep_start_mem_of_mem_scanPairs {p : SleepPeriod}
    {l : List ActivityEvent} (h : p ∈ scanPairs l) :
    ∃ a ∈ l, p.sleep_start = a.timestamp := by
  obtain ⟨pr, hmem, -, rfl⟩ := mem_scanPairs_iff.1 h
  exact ⟨pr.1, (List.of_mem_zip hmem).1, rfl⟩

theorem scanPairs_pairwise_lt :
    ∀ l : List ActivityEvent, l.Pairwise tsLT →
      (scanPairs l).Pairwise (fun p q => p.sleep_start < q.sleep_start)
  | [] => fun _ => List.Pairwise.nil
  | e1 :: rest => by
    intro hsort
    obtain ⟨he1, hrest⟩ := List.pairwise_cons.1 hsort
    cases rest with
    | nil => exact List.Pairwise.nil
    | cons e2 rest' =>
      show ((if acceptGap (e1, e2) then [mkPeriod e1 e2] else []) ++
        scanPairs (e2 :: rest')).Pairwise (fun p q => p.sleep_start < q.sleep_start)
      have htail := scanPairs_pairwise_lt (e2 :: rest') hrest
      by_cases h : acceptGap (e1, e2)
      · rw [if_pos h]
        rw [List.singleton_append, List.pairwise_cons]
        refine ⟨fun q hq => ?_, htail⟩
        obtain ⟨a, ha, heq⟩ := sleep_start_mem_of_mem_scanPairs hq
        rw [heq]
        exact he1 a ha
      · rw [if_neg h, List.nil_append]
        exact htail

/-! ### Statistics aggregator (`analyze_sleep_patterns`, lines 188-220)

Only the statistics block (lines 201-210) is in scope; ingestion and the
visualization sink are external collaborators.  The input is the event list
that `load_browser_history` produced; the sleep table is recomputed by
`infer_sleep_periods` exactly as at line 198 (with the default threshold).
-/

/-- Pandas `pd.Series.std()`: sample standard deviation, `NaN` when fewer than two
values.  Modelled by the sample variance (its square, which stays rational);
`none` models `NaN`. -/
def sampleVariance? (l : List ℚ) : Option ℚ :=
  if l.length < 2 then none
  else
    some (((l.map (fun d => (d - l.sum / (l.length : ℚ)) ^ 2)).sum) /
      ((l.length : ℚ) - 1))

/-- Pandas `pd.Series.median()`: middle element of the sorted values, or the mean of
the two middle elements for an even count. -/
def medianQ (l : List ℚ) : ℚ :=
  let s := List.insertionSort (· ≤ ·) l
  if l.length % 2 = 1 then s.getD (l.length / 2) 0
  else (s.getD (l.length / 2 - 1) 0 + s.getD (l.length / 2) 0) / 2

/-- Largest multiplicity occurring in `hs`. -/
def maxCount (hs : List Nat) : Nat :=
  (hs.map (fun h => hs.count h)).foldr max 0

/-- Pandas `Series.mode().iloc[0]`: `mode()` lists the values of maximal multiplicity
in ascending order, `.iloc[0]` takes the first — i.e. the smallest value whose
multiplicity is maximal.  `none` models the `IndexError` on an empty series. -/
def mode_first (hs : List Nat) : Option Nat :=
  (List.insertionSort (· ≤ ·) hs).find? (fun h => hs.count h == maxCount hs)

/-- The statistics record built at lines 201-210. -/
structure SleepStats where
  average_sleep : ℚ
  std_sleep : Option ℚ
  median_sleep : ℚ
  num_days : Nat
  date_range_min : Nat
  date_range_max : Nat
  most_common_sleep_hour : Nat
  most_common_wake_hour : Nat
  chrome_entries : Nat
deriving DecidableEq, Repr

/-- Lines 196-210 of `analyze_sleep_patterns`: infer the sleep table from the
events and build the statistics dict.  On an empty sleep table the source
raises `KeyError` at `sleep_df["duration_hours"]` (an empty `pd.DataFrame([])`
has no columns); with rows present, `mode().iloc[0]` would raise `IndexError`
on an empty series (unreachable), otherwise every entry is computed. -/
def analyze_sleep_patterns (events : List ActivityEvent) :
    Except String SleepStats :=
  let sleep_df := infer_sleep_periods events
  if sleep_df.isEmpty then
    Except.error "KeyError: duration_hours"
  else
    let durations := sleep_df.map (fun p => p.duration_hours)
    match mode_first (sleep_df.map (fun p => hourOf p.sleep_start)),
        mode_first (sleep_df.map (fun p => hourOf p.sleep_end)) with
    | some m1, some m2 =>
        Except.ok
          { average_sleep := durations.sum / (durations.length : ℚ)
            std_sleep := sampleVariance? durations
            median_sleep := medianQ durations
            num_days := sleep_df.length
            date_range_min :=
              match sleep_df.map (fun p => p.date) with
              | [] => 0
              | d :: ds => ds.foldl min d
            date_range_max :=
              match sleep_df.map (fun p => p.date) with
              | [] => 0
              | d :: ds => ds.foldl max d
            most_common_sleep_hour := m1
            most_common_wake_hour := m2
            chrome_entries := events.length }
    | _, _ => Except.error "IndexError: index 0 is out of bounds"

/-- The characterization in the spec of `mostCommonSleepHour`/`mostCommonWakeHour`:
a mode of `hs` (maximal multiplicity), smallest among the tied values. -/
def isSmallestMode (hs : List Nat) (m : Nat) : Prop :=
  m ∈ hs ∧ (∀ h ∈ hs, hs.count h ≤ hs.count m) ∧
    ∀ h ∈ hs, hs.count h = hs.count m → m ≤ h

theorem le_foldr_max {x : Nat} : ∀ {l : List Nat}, x ∈ l → x ≤ l.foldr max 0
  | a :: l, hx => by
    rcases List.mem_cons.1 hx with rfl | hx
    · exact Nat.le_max_left _ _
    · exact Nat.le_trans (le_foldr_max hx) (Nat.le_max_right _ _)

theorem foldr_max_mem :
    ∀ l : List Nat, l.foldr max 0 ∈ l ∨ l.foldr max 0 = 0
  | [] => Or.inr rfl
  | a :: l => by
    rcases foldr_max_mem l with h | h
    · rcases Nat.le_total a (l.foldr max 0) with hle | hle
      · left
        rw [List.foldr_cons, Nat.max_eq_right hle]
        exact List.mem_cons_of_mem a h
      · left
        rw [List.foldr_cons, Nat.max_eq_left hle]
        exact List.mem_cons_self a l
    · left
      rw [List.foldr_cons, h, Nat.max_eq_left (Nat.zero_le a)]
      exact List.mem_cons_self a l

theorem count_le_maxCount {hs : List Nat} {h : Nat} (hmem : h ∈ hs) :
    hs.count h ≤ maxCount hs :=
  le_foldr_max (List.mem_map_of_mem (fun x => hs.count x) hmem)

theorem maxCount_attained {hs : List Nat} (hne : hs ≠ []) :
    ∃ h ∈ hs, hs.count h = maxCount hs := by
  rcases foldr_max_mem (hs.map (fun x => hs.count x)) with hmem | hzero
  · obtain ⟨h, hh, heq⟩ := List.mem_map.1 hmem
    exact ⟨h, hh, heq⟩
  · obtain ⟨a, ha⟩ := List.exists_mem_of_ne_nil hs hne
    have h1 : 0 < hs.count a := List.count_pos_iff.2 ha
    have h2 : hs.count a ≤ maxCount hs := count_le_maxCount ha
    rw [maxCount, hzero] at h2
    exact absurd (Nat.lt_of_lt_of_le h1 h2) (Nat.lt_irrefl 0)

theorem find?_sorted_min {p : Nat → Bool} {m : Nat} :
    ∀ {s : List Nat}, s.Pairwise (· ≤ ·) → s.find? p = some m →
      ∀ h ∈ s, p h = true → m ≤ h
  | [], _, hfind => by simp at hfind
  | a :: s, hsort, hfind => by
    obtain ⟨ha, hsort'⟩ := List.pairwise_cons.1 hsort
    rw [List.find?_cons] at hfind
    intro h hmem hp
    by_cases hpa : p a
    · rw [hpa] at hfind
      have : m = a := (Option.some.inj hfind).symm
      subst this
      rcases List.mem_cons.1 hmem with rfl | hmem
      · exact Nat.le_refl _
      · exact ha h hmem
    · rw [Bool.not_eq_true] at hpa
      rw [hpa] at hfind
      rcases List.mem_cons.1 hmem with rfl | hmem
      · exact absurd hp (by simp [hpa])
      · exact find?_sorted_min hsort' hfind h hmem hp

theorem mode_first_isSome {hs : List Nat} (hne : hs ≠ []) :
    ∃ m, mode_first hs = some m := by
  obtain ⟨h, hmem, hcount⟩ := maxCount_attained hne
  have hmem' : h ∈ List.insertionSort (· ≤ ·) hs :=
    (List.perm_insertionSort (· ≤ ·) hs).mem_iff.2 hmem
  have : (List.insertionSort (· ≤ ·) hs).find?
      (fun x => hs.count x == maxCount hs) |>.isSome := by
    rw [List.find?_isSome]
    exact ⟨h, hmem', by simpa using hcount⟩
  obtain ⟨m, hm⟩ := Option.isSome_iff_exists.1 this
  exact ⟨m, hm⟩

theorem mode_first_spec {hs : List Nat} {m : Nat}
    (hfind : mode_first hs = some m) : isSmallestMode hs m := by
  have hperm := List.perm_insertionSort (· ≤ ·) hs
  have hmem : m ∈ hs :=
    hperm.mem_iff.1 (List.mem_of_find?_eq_some hfind)
  have hcount : hs.count m = maxCount hs := by
    have := List.find?_some hfind
    simpa using this
  refine ⟨hmem, fun h hh => ?_, fun h hh hceq => ?_⟩
  · rw [hcount]
    exact count_le_maxCount hh
  · have hsorted : (List.insertionSort (· ≤ ·) hs).Pairwise (· ≤ ·) :=
      List.sorted_insertionSort (· ≤ ·) hs
    exact find?_sorted_min hsorted hfind h (hperm.mem_iff.2 hh)
      (by simpa using hceq.trans hcount)

/-! ### Concrete timelines used to instantiate the theorems -/

/-- Scenario A of the spec: activity at 01:00, 01:05 and 09:10 of day 0. -/
def exEvents : List ActivityEvent :=
  [⟨3600, "chrome"⟩, ⟨3900, "chrome"⟩, ⟨33000, "chrome"⟩]

/-- A single activity event: no gap can be formed. -/
def exShort : List ActivityEvent :=
  [⟨3600, "chrome"⟩]

/-- Two events five hours apart. -/
def exGap5 : List ActivityEvent :=
  [⟨0, "chrome"⟩, ⟨18000, "chrome"⟩]

/-- Duplicate instant `0` carrying two different sources, chrome row first. -/
def exDup1 : List ActivityEvent :=
  [⟨0, "chrome"⟩, ⟨0, "youtube"⟩, ⟨18000, "chrome"⟩]

/-- The same rows with the two duplicate-instant rows swapped. -/
def exDup2 : List ActivityEvent :=
  [⟨0, "youtube"⟩, ⟨0, "chrome"⟩, ⟨18000, "chrome"⟩]

/-- The list `exEvents` reversed: same rows, distinct timestamps, different order. -/
def exRev : List ActivityEvent :=
  [⟨33000, "chrome"⟩, ⟨3900, "chrome"⟩, ⟨3600, "chrome"⟩]

theorem infer_exEvents_eval :
    infer_sleep_periods exEvents = [mkPeriod ⟨3900, "chrome"⟩ ⟨33000, "chrome"⟩] := by
  norm_num [infer_sleep_periods, merge_timeline, dropDupTS, dropDupAux,
    List.insertionSort, List.orderedInsert, exEvents, tsLE, scanPairs,
    acceptGap, gapHours]

/-! ### The claims -/

/-- C1: on the sorted, deduplicated timeline, a SleepPeriod is emitted for an
adjacent pair iff the gap in fractional hours lies in `[4, 14]` (the default
bounds); consequently the `durationHours` of every emitted period lies in
`[4, 14]`. -/
theorem c1_gap_bounds (df : List ActivityEvent) :
    (∀ p ∈ infer_sleep_periods df, 4 ≤ p.duration_hours ∧ p.duration_hours ≤ 14) ∧
    ∀ pr ∈ adjPairs (merge_timeline df),
      (mkPeriod pr.1 pr.2 ∈ infer_sleep_periods df ↔
        4 ≤ gapHours pr.1.timestamp pr.2.timestamp ∧
          gapHours pr.1.timestamp pr.2.timestamp ≤ 14) := by
  constructor
  · intro p hp
    obtain ⟨pr, _, hacc, rfl⟩ := mem_scanPairs_iff.1 hp
    exact hacc
  · intro pr hmem
    exact mkPeriod_mem_scanPairs_iff hmem

/-- Witness for C1 at Scenario A: the 01:05 → 09:10 pair (gap 97/12 hours) is
emitted. -/
theorem c1_gap_bounds_witness :
    mkPeriod ⟨3900, "chrome"⟩ ⟨33000, "chrome"⟩ ∈ infer_sleep_periods exEvents := by
  have h := (c1_gap_bounds exEvents).2 (⟨3900, "chrome"⟩, ⟨33000, "chrome"⟩)
    (by decide)
  exact h.2 (by constructor <;> norm_num [gapHours])

/-- C2 (code bug): `gap_threshold` is dead — the body hard-codes `4 <= gap <= 14`
and never reads the parameter, contradicting the docstring ("minimum hours
of inactivity to consider as sleep").  A five-hour gap is accepted even with
`gap_threshold = 6`, and the output is invariant in the threshold. -/
theorem c2_gap_threshold_ignored :
    infer_sleep_periods exGap5 6 =
      [{ sleep_start := 0, sleep_end := 18000, duration_hours := 5,
         date := 0, start_source := "chrome", end_source := "chrome" }] ∧
    ∀ (df : List ActivityEvent) (g g' : ℚ),
      infer_sleep_periods df g = infer_sleep_periods df g' := by
  constructor
  · norm_num [infer_sleep_periods, merge_timeline, dropDupTS, dropDupAux,
      List.insertionSort, List.orderedInsert, exGap5, tsLE, scanPairs,
      acceptGap, gapHours, mkPeriod, dateOf]
  · intro df g g'
    rfl

/-- C3 (code bug): with zero sleep periods the statistics block raises
`KeyError` at `sleep_df["duration_hours"]` (an empty `pd.DataFrame([])` has no
columns) instead of returning a designated "no data" record. -/
theorem c3_empty_stats_keyerror (events : List ActivityEvent)
    (h : infer_sleep_periods events = []) :
    analyze_sleep_patterns events = Except.error "KeyError: duration_hours" := by
  simp [analyze_sleep_patterns, h]

/-- Witness for C3: a single-event history yields zero sleep periods and the
aggregation faults. -/
theorem c3_empty_stats_keyerror_witness :
    analyze_sleep_patterns exShort = Except.error "KeyError: duration_hours" :=
  c3_empty_stats_keyerror exShort (by decide)

/-- C4: each emitted SleepPeriod is built from an adjacent pair of the merged
timeline: `sleepStart`/`sleepEnd` are the timestamps of the pair, `durationHours`
the gap in fractional hours, `date` the calendar date of `sleepStart`, and
`startSource`/`endSource` the source tags of the pair. -/
theorem c4_emission_fields (df : List ActivityEvent) :
    ∀ p ∈ infer_sleep_periods df, ∃ pr ∈ adjPairs (merge_timeline df),
      p.sleep_start = pr.1.timestamp ∧ p.sleep_end = pr.2.timestamp ∧
      p.duration_hours = gapHours pr.1.timestamp pr.2.timestamp ∧
      p.date = dateOf p.sleep_start ∧
      p.start_source = pr.1.source ∧ p.end_source = pr.2.source := by
  intro p hp
  obtain ⟨pr, hmem, -, rfl⟩ := mem_scanPairs_iff.1 hp
  exact ⟨pr, hmem, rfl, rfl, rfl, rfl, rfl, rfl⟩

/-- Witness for C4 at Scenario A. -/
theorem c4_emission_fields_witness :
    ∃ pr ∈ adjPairs (merge_timeline exEvents),
      (mkPeriod ⟨3900, "chrome"⟩ ⟨33000, "chrome"⟩).sleep_start = pr.1.timestamp ∧
      (mkPeriod ⟨3900, "chrome"⟩ ⟨33000, "chrome"⟩).sleep_end = pr.2.timestamp ∧
      (mkPeriod ⟨3900, "chrome"⟩ ⟨33000, "chrome"⟩).duration_hours =
        gapHours pr.1.timestamp pr.2.timestamp ∧
      (mkPeriod ⟨3900, "chrome"⟩ ⟨33000, "chrome"⟩).date =
        dateOf (mkPeriod ⟨3900, "chrome"⟩ ⟨33000, "chrome"⟩).sleep_start ∧
      (mkPeriod ⟨3900, "chrome"⟩ ⟨33000, "chrome"⟩).start_source = pr.1.source ∧
      (mkPeriod ⟨3900, "chrome"⟩ ⟨33000, "chrome"⟩).end_source = pr.2.source :=
  c4_emission_fields exEvents _
    (by rw [infer_exEvents_eval]; exact List.mem_singleton.2 rfl)

/-- C5: every emitted period satisfies `sleepEnd > sleepStart`, and its stored
`durationHours` equals `(sleepEnd - sleepStart)` in hours exactly — in
particular within the 1e-9-hour tolerance. -/
theorem c5_invariant (df : List ActivityEvent) (g : ℚ) :
    ∀ p ∈ infer_sleep_periods df g, p.sleep_start < p.sleep_end ∧
      p.duration_hours = ((p.sleep_end : ℚ) - (p.sleep_start : ℚ)) / 3600 ∧
      |p.duration_hours - ((p.sleep_end : ℚ) - (p.sleep_start : ℚ)) / 3600| ≤
        1 / 1000000000 := by
  intro p hp
  obtain ⟨pr, -, hacc, rfl⟩ := mem_scanPairs_iff.1 hp
  refine ⟨?_, rfl, ?_⟩
  swap
  · show |((pr.2.timestamp : ℚ) - (pr.1.timestamp : ℚ)) / 3600 -
      ((pr.2.timestamp : ℚ) - (pr.1.timestamp : ℚ)) / 3600| ≤ 1 / 1000000000
    rw [sub_self, abs_zero]
    norm_num
  have h4 : (4 : ℚ) ≤ ((pr.2.timestamp : ℚ) - (pr.1.timestamp : ℚ)) / 3600 :=
    hacc.1
  rw [le_div_iff₀ (by norm_num : (0 : ℚ) < 3600)] at h4
  have hlt : (pr.1.timestamp : ℚ) < (pr.2.timestamp : ℚ) := by linarith
  exact_mod_cast hlt

/-- Witness for C5 at Scenario A. -/
theorem c5_invariant_witness :
    (mkPeriod ⟨3900, "chrome"⟩ ⟨33000, "chrome"⟩).sleep_start <
      (mkPeriod ⟨3900, "chrome"⟩ ⟨33000, "chrome"⟩).sleep_end :=
  (c5_invariant exEvents 4 _
    (by rw [infer_exEvents_eval]; exact List.mem_singleton.2 rfl)).1

/-- C7: the engine emits at most `n - 1` periods for a deduplicated timeline of
length `n`, and fewer than 2 events (before or after merging) yield the empty
table rather than an error. -/
theorem c7_length_bound (df : List ActivityEvent) (g : ℚ) :
    (infer_sleep_periods df g).length ≤ (merge_timeline df).length - 1 ∧
    ((merge_timeline df).length < 2 → infer_sleep_periods df g = []) ∧
    (df.length < 2 → infer_sleep_periods df g = []) := by
  have hshort : (merge_timeline df).length < 2 → infer_sleep_periods df g = [] := by
    intro h
    show scanPairs (merge_timeline df) = []
    match hm : merge_timeline df with
    | [] => rfl
    | [e] => rfl
    | a :: b :: l =>
      rw [hm] at h
      simp only [List.length_cons] at h
      exact absurd h (by omega)
  refine ⟨scanPairs_length _, hshort, fun h => hshort ?_⟩
  have hlen : (merge_timeline df).length ≤ df.length :=
    Nat.le_trans (List.Sublist.length_le (dropDupAux_sublist [] _))
      (Nat.le_of_eq (List.Perm.length_eq (List.perm_insertionSort tsLE df)))
  exact Nat.lt_of_le_of_lt hlen h

/-- Witness for C7: a single event yields the empty table. -/
theorem c7_length_bound_witness : infer_sleep_periods exShort 4 = [] :=
  (c7_length_bound exShort 4).2.2 (by decide)

/-- C8: on a non-empty sleep table the aggregation succeeds, and
`mostCommonSleepHour`/`mostCommonWakeHour` are the mode of the truncated
hour-of-day of `sleepStart`/`sleepEnd`, the smallest value on ties. -/
theorem c8_mode_hours (events : List ActivityEvent)
    (hne : infer_sleep_periods events ≠ []) :
    ∃ s, analyze_sleep_patterns events = Except.ok s ∧
      isSmallestMode
        ((infer_sleep_periods events).map (fun p => hourOf p.sleep_start))
        s.most_common_sleep_hour ∧
      isSmallestMode
        ((infer_sleep_periods events).map (fun p => hourOf p.sleep_end))
        s.most_common_wake_hour := by
  have hne1 : (infer_sleep_periods events).map (fun p => hourOf p.sleep_start) ≠ [] := by
    simpa using hne
  have hne2 : (infer_sleep_periods events).map (fun p => hourOf p.sleep_end) ≠ [] := by
    simpa using hne
  obtain ⟨m1, hm1⟩ := mode_first_isSome hne1
  obtain ⟨m2, hm2⟩ := mode_first_isSome hne2
  refine
    ⟨{ average_sleep :=
          ((infer_sleep_periods events).map (fun p => p.duration_hours)).sum /
            (((infer_sleep_periods events).map (fun p => p.duration_hours)).length : ℚ)
       std_sleep :=
          sampleVariance? ((infer_sleep_periods events).map (fun p => p.duration_hours))
       median_sleep :=
          medianQ ((infer_sleep_periods events).map (fun p => p.duration_hours))
       num_days := (infer_sleep_periods events).length
       date_range_min :=
          match (infer_sleep_periods events).map (fun p => p.date) with
          | [] => 0
          | d :: ds => ds.foldl min d
       date_range_max :=
          match (infer_sleep_periods events).map (fun p => p.date) with
          | [] => 0
          | d :: ds => ds.foldl max d
       most_common_sleep_hour := m1
       most_common_wake_hour := m2
       chrome_entries := events.length }, ?_, mode_first_spec hm1,
      mode_first_spec hm2⟩
  simp only [analyze_sleep_patterns]
  rw [if_neg (by simpa [List.isEmpty_iff] using hne), hm1, hm2]

/-- Witness for C8 at Scenario A (sleep hour 1, wake hour 9). -/
theorem c8_mode_hours_witness :
    ∃ s, analyze_sleep_patterns exEvents = Except.ok s ∧
      isSmallestMode
        ((infer_sleep_periods exEvents).map (fun p => hourOf p.sleep_start))
        s.most_common_sleep_hour ∧
      isSmallestMode
        ((infer_sleep_periods exEvents).map (fun p => hourOf p.sleep_end))
        s.most_common_wake_hour :=
  c8_mode_hours exEvents (by rw [infer_exEvents_eval]; simp)

/-- C9: the emitted table is ordered by ascending `sleepStart`, and the
`nightCount` statistic (`num_days`) equals the table's length. -/
theorem c9_ordering_nightcount (events : List ActivityEvent) (g : ℚ) :
    (infer_sleep_periods events g).Pairwise
      (fun p q => p.sleep_start < q.sleep_start) ∧
    ∀ s, analyze_sleep_patterns events = Except.ok s →
      s.num_days = (infer_sleep_periods events).length := by
  constructor
  · exact scanPairs_pairwise_lt _ (merge_timeline_pairwise_lt events)
  · intro s h
    simp only [analyze_sleep_patterns] at h
    by_cases hemp : (infer_sleep_periods events).isEmpty
    · rw [if_pos hemp] at h
      exact absurd h (by simp)
    · rw [if_neg hemp] at h
      rcases hs1 : mode_first
          ((infer_sleep_periods events).map (fun p => hourOf p.sleep_start)) with
        _ | m1 <;>
        rcases hs2 : mode_first
            ((infer_sleep_periods events).map (fun p => hourOf p.sleep_end)) with
          _ | m2 <;>
        rw [hs1, hs2] at h
      · exact absurd h (by simp)
      · exact absurd h (by simp)
      · exact absurd h (by simp)
      · have := Except.ok.inj h
        rw [← this]

/-- Witness for C9 at Scenario A: one period, `num_days = 1`. -/
theorem c9_ordering_nightcount_witness :
    (1 : Nat) = (infer_sleep_periods exEvents).length := by
  have h := (c9_ordering_nightcount exEvents 4).2
    { average_sleep := 97 / 12
      std_sleep := none
      median_sleep := 97 / 12
      num_days := 1
      date_range_min := 0
      date_range_max := 0
      most_common_sleep_hour := 1
      most_common_wake_hour := 9
      chrome_entries := 3 }
  exact h (by
    simp only [analyze_sleep_patterns, infer_exEvents_eval]
    norm_num [mkPeriod, gapHours, hourOf, dateOf, mode_first, maxCount,
      medianQ, sampleVariance?, List.insertionSort, List.orderedInsert,
      exEvents])

/-- C10 counterexample: swapping two rows that share instant 0 but differ in
source changes which source survives deduplication, hence changes the `startSource`
of the emitted period: the output is not invariant under permutation. -/
theorem c10_not_perm_invariant :
    exDup1.Perm exDup2 ∧
      infer_sleep_periods exDup1 ≠ infer_sleep_periods exDup2 := by
  constructor
  · decide
  · intro h
    have h1 : (infer_sleep_periods exDup1).map (fun p => p.start_source) =
        ["chrome"] := by
      norm_num [infer_sleep_periods, merge_timeline, dropDupTS, dropDupAux,
        List.insertionSort, List.orderedInsert, exDup1, tsLE, scanPairs,
        acceptGap, gapHours, mkPeriod]
    have h2 : (infer_sleep_periods exDup2).map (fun p => p.start_source) =
        ["youtube"] := by
      norm_num [infer_sleep_periods, merge_timeline, dropDupTS, dropDupAux,
        List.insertionSort, List.orderedInsert, exDup2, tsLE, scanPairs,
        acceptGap, gapHours, mkPeriod]
    rw [h] at h1
    rw [h1] at h2
    exact absurd (List.head_eq_of_cons_eq h2) (by decide)

/-- C10 (amended): the output is invariant under permutation of the input rows
whenever the row timestamps are pairwise distinct (the sort-then-dedup
normalizes any such reordering); with duplicate instants of differing sources
the surviving source tag depends on the input order. -/
theorem c10_perm_invariant (T T' : List ActivityEvent)
    (hperm : T.Perm T')
    (hnodup : (T.map (fun e => e.timestamp)).Nodup) :
    infer_sleep_periods T = infer_sleep_periods T' := by
  suffices h : List.insertionSort tsLE T = List.insertionSort tsLE T' by
    show scanPairs (merge_timeline T) = scanPairs (merge_timeline T')
    rw [merge_timeline, merge_timeline, h]
  have hnodup' : (T'.map (fun e => e.timestamp)).Nodup :=
    (hperm.map (fun e => e.timestamp)).nodup hnodup
  have hstrict : ∀ (l : List ActivityEvent),
      (l.map (fun e => e.timestamp)).Nodup →
      (List.insertionSort tsLE l).Pairwise tsLT := by
    intro l hl
    have hsorted : (List.insertionSort tsLE l).Pairwise tsLE :=
      List.sorted_insertionSort tsLE l
    have hne : (List.insertionSort tsLE l).Pairwise
        (fun a b => a.timestamp ≠ b.timestamp) := by
      have : ((List.insertionSort tsLE l).map (fun e => e.timestamp)).Nodup :=
        (((List.perm_insertionSort tsLE l).map (fun e => e.timestamp)).nodup_iff).2 hl
      exact (List.pairwise_map.1 this)
    exact (hsorted.and hne).imp (fun h => Nat.lt_of_le_of_ne h.1 h.2)
  exact List.eq_of_perm_of_sorted
    ((List.perm_insertionSort tsLE T).trans
      (hperm.trans (List.perm_insertionSort tsLE T').symm))
    (hstrict T hnodup) (hstrict T' hnodup')

/-- Witness for the amended C10: reversing three distinct-timestamp rows leaves
the output unchanged. -/
theorem c10_perm_invariant_witness :
    infer_sleep_periods exEvents = infer_sleep_periods exRev :=
  c10_perm_invariant exEvents exRev (by decide) (by decide)

end SleepAnalysis
